import Mathlib

/-!
Verification of the news-scraper aggregation pipeline.

Shallow embedding of the repository's core pipeline:
* `CacheManager` (hash-based change detection, durable per-(source, category) item cache),
* `NewsAggregator` (`checkForChanges`, `scrapeCategory`, `consolidateResults`, `normalizeTitle`),
* `FeedRegistryManager.registerFeed`.

Modelling conventions:
* Machine clock instants (`Date` values, `Date.now()`) are embedded as `Int`
  epoch milliseconds.  An ISO-8601 timestamp string is represented by the
  millisecond instant it denotes: `Date.prototype.toISOString` followed by
  `new Date(iso)` is an exact round trip at millisecond precision, so the
  string layer is modelled by this (injective) denotation.
* The MD5 digest supplied by node's `crypto` library is an external black box;
  every definition that hashes takes it as an explicit parameter
  `md5 : String → String`.
* A JavaScript plain object used as a string-keyed map (`CacheData.sources`)
  is embedded as an insertion-ordered association list; `Object.values`
  is projection of the values in insertion order.
* `Array.prototype.sort cmp` (stable since ES2019) is embedded as a stable
  sort by the relation `le a b := cmp a b ≤ 0` (`jsSortBy`, an insertion
  sort — the unique stable result when `le` is a total preorder, which every
  comparator in this repository induces).
* `Promise.allSettled` outcomes are embedded by the `Settled` sum type; the
  orchestrator consumes settled outcomes as data, never exceptions.
-/

namespace NewsScraper

/-- Lookup in a JS object used as a string-keyed map: first binding wins
(association lists built by `recordSet` never hold duplicate keys). -/
def recordLookup {β : Type} (m : List (String × β)) (k : String) : Option β :=
  (m.find? (fun p => p.1 = k)).map (fun p => p.2)

/-- JS object property write `m[k] = v`: overwrite in place if the key is
present, otherwise append the new binding (insertion order semantics). -/
def recordSet {β : Type} : List (String × β) → String → β → List (String × β)
  | [], k, v => [(k, v)]
  | (k', v') :: rest, k, v =>
    if k' = k then (k, v) :: rest else (k', v') :: recordSet rest k v

/-- Embedding of `Array.prototype.sort cmp` (ES2019: stable): a stable sort
placing `a` weakly before `b` exactly when `le a b` (that is, `cmp a b ≤ 0`).
Realized as insertion sort, which is stable and kernel-computable. -/
def jsSortBy {α : Type} (le : α → α → Bool) (l : List α) : List α :=
  List.insertionSort (fun a b => le a b = true) l

/-- Outcome of one promise as reported by `Promise.allSettled`. -/
inductive Settled (α : Type) where
  | fulfilled (value : α)
  | rejected (reason : String)
deriving DecidableEq, Repr

/-- `src/types/index.ts` `NewsItem`.  `NewsCategory` enum values are their
string representations; `Date` fields are epoch-millisecond instants. -/
structure NewsItem where
  id : String
  title : String
  description : Option String
  source : String
  sourceUrl : String
  category : String
  tags : List String
  publishedAt : Int
  scrapedAt : Int
  rank : Option Int
  imageUrl : Option String
deriving DecidableEq, Repr

/-- `src/types/index.ts` `CachedNewsItem`: the cached form of a `NewsItem`;
`publishedAt`/`scrapedAt` are ISO strings in the source, modelled by the
instants they denote (see file header). -/
structure CachedNewsItem where
  id : String
  title : String
  description : Option String
  source : String
  sourceUrl : String
  category : String
  tags : List String
  publishedAt : Int
  scrapedAt : Int
  rank : Option Int
  imageUrl : Option String
  contentHash : String
deriving DecidableEq, Repr

/-- `src/types/index.ts` `SourceCache`. -/
structure SourceCache where
  sourceId : String
  category : String
  lastUpdate : Int
  items : List CachedNewsItem
  itemsHash : String
deriving DecidableEq, Repr

/-- `src/types/index.ts` `CacheData`. -/
structure CacheData where
  version : String
  lastUpdate : Int
  sources : List (String × SourceCache)
deriving DecidableEq, Repr

/-- `src/types/index.ts` `ScrapingResult`. -/
structure ScrapingResult where
  items : List NewsItem
  success : Bool
  error : Option String
  timestamp : Int
  source : String
  category : String
deriving DecidableEq, Repr

/-- The string hashed by `CacheManager.generateContentHash`:
title, description (empty default), URL and the publication instant's ISO
rendering, joined by pipes.  The ISO rendering is modelled by the decimal
rendering of the instant (both are injective presentations of the instant). -/
def contentString (item : NewsItem) : String :=
  item.title ++ "|" ++ item.description.getD "" ++ "|" ++ item.sourceUrl
    ++ "|" ++ toString item.publishedAt

/-- `CacheManager.generateContentHash`. -/
def generateContentHash (md5 : String → String) (item : NewsItem) : String :=
  md5 (contentString item)

/-- Lexicographic comparison of character sequences by code point. -/
def charListLe : List Char → List Char → Bool
  | [], _ => true
  | _ :: _, [] => false
  | a :: as, b :: bs =>
    if a.toNat < b.toNat then true
    else if b.toNat < a.toNat then false
    else charListLe as bs

/-- Boolean string ordering used to embed JS default `Array.sort()` on the
hex digest strings: JS compares strings by UTF-16 code unit, which on BMP
strings (all hex digests are ASCII) is code-point lexicographic order. -/
def strLe (a b : String) : Bool := charListLe a.data b.data

/-- `CacheManager.generateItemsHash`: sort the per-item content hashes and
hash their pipe-joined concatenation. -/
def generateItemsHash (md5 : String → String) (items : List CachedNewsItem) : String :=
  md5 (String.intercalate "|" (jsSortBy strLe (items.map (fun i => i.contentHash))))

/-- `CacheManager.convertToCache`. -/
def convertToCache (md5 : String → String) (items : List NewsItem) : List CachedNewsItem :=
  items.map (fun item =>
    { id := item.id
      title := item.title
      description := item.description
      source := item.source
      sourceUrl := item.sourceUrl
      category := item.category
      tags := item.tags
      publishedAt := item.publishedAt
      scrapedAt := item.scrapedAt
      rank := item.rank
      imageUrl := item.imageUrl
      contentHash := generateContentHash md5 item })

/-- `CacheManager.convertFromCache`. -/
def convertFromCache (cachedItems : List CachedNewsItem) : List NewsItem :=
  cachedItems.map (fun cached =>
    { id := cached.id
      title := cached.title
      description := cached.description
      source := cached.source
      sourceUrl := cached.sourceUrl
      category := cached.category
      tags := cached.tags
      publishedAt := cached.publishedAt
      scrapedAt := cached.scrapedAt
      rank := cached.rank
      imageUrl := cached.imageUrl })

/-- `CacheManager.getCacheKey`. -/
def getCacheKey (sourceId category : String) : String :=
  sourceId ++ "_" ++ category

/-- `CacheManager.hasChanges`: no entry or empty cached item list counts as
changed; otherwise compare aggregate hashes. -/
def hasChanges (md5 : String → String) (cache : CacheData)
    (sourceId category : String) (newItems : List NewsItem) : Bool :=
  match recordLookup cache.sources (getCacheKey sourceId category) with
  | none => true
  | some sourceCache =>
    if sourceCache.items.length = 0 then
      true
    else
      let newItemsHash := generateItemsHash md5 (convertToCache md5 newItems)
      sourceCache.itemsHash != newItemsHash

/-- `CacheManager.updateCache`: replace the entry for the key wholesale,
stamping `lastUpdate := now`. -/
def updateCache (md5 : String → String) (cache : CacheData)
    (sourceId category : String) (items : List NewsItem) (now : Int) : CacheData :=
  let cachedItems := convertToCache md5 items
  { cache with
    sources := recordSet cache.sources (getCacheKey sourceId category)
      { sourceId := sourceId
        category := category
        lastUpdate := now
        items := cachedItems
        itemsHash := generateItemsHash md5 cachedItems } }

/-- `CacheManager.getCachedItems`. -/
def getCachedItems (cache : CacheData) (sourceId category : String) : List NewsItem :=
  match recordLookup cache.sources (getCacheKey sourceId category) with
  | none => []
  | some sourceCache => convertFromCache sourceCache.items

/-- One row of `CacheManager.getCacheStats().sources`. -/
structure CacheStatsSource where
  sourceId : String
  category : String
  itemCount : Nat
  lastUpdate : Int
deriving DecidableEq, Repr

/-- Return shape of `CacheManager.getCacheStats`. -/
structure CacheStats where
  totalSources : Nat
  totalItems : Nat
  lastUpdate : Int
  sources : List CacheStatsSource
deriving DecidableEq, Repr

/-- `CacheManager.getCacheStats`. -/
def getCacheStats (cache : CacheData) : CacheStats :=
  let sources := cache.sources.map (fun p =>
    { sourceId := p.2.sourceId
      category := p.2.category
      itemCount := p.2.items.length
      lastUpdate := p.2.lastUpdate : CacheStatsSource })
  { totalSources := cache.sources.length
    totalItems := sources.foldl (fun sum s => sum + s.itemCount) 0
    lastUpdate := cache.lastUpdate
    sources := sources }

/-- `src/types/index.ts` `CategoryConfig`. -/
structure CategoryConfig where
  category : String
  endpoint : String
  maxItems : Nat
  updateFrequency : Int
deriving DecidableEq, Repr

/-- `src/types/index.ts` `SourceConfig`. -/
structure SourceConfig where
  id : String
  name : String
  srcType : String
  baseUrl : String
  categories : List CategoryConfig
  rateLimit : Int
  enabled : Bool
deriving DecidableEq, Repr

/-- `ConfigLoader.GlobalConfig`. -/
structure GlobalConfig where
  maxItemsPerFeed : Nat
  defaultUpdateFrequency : Int
  enabledCategories : List String
  outputDirectory : String
  baseUrl : String
deriving DecidableEq, Repr

/-- `ConfigLoader.AppConfig`. -/
structure AppConfig where
  sources : List SourceConfig
  global : GlobalConfig
deriving DecidableEq, Repr

/-- The aggregator's `this.sources` map, as built by
`NewsAggregator.initialize`: one entry per enabled configured source, paired
with `NewsSource.getSupportedCategories()` — the `category` field of each of
its `CategoryConfig` records (config ids are assumed distinct, matching the
`Map` keyed by id). -/
def aggregatorSources (config : AppConfig) : List (String × List String) :=
  (config.sources.filter (fun sc => sc.enabled)).map
    (fun sc => (sc.id, sc.categories.map (fun c => c.category)))

/-- The `updateFrequency` value `checkForChanges` computes for a pair:
`sourceConfig?.categories.find(...)?.updateFrequency || 60`.  The `|| 60`
fallback maps a missing *or zero* configured value to 60 (JS falsiness). -/
def checkUpdateFrequency (config : AppConfig) (sourceId category : String) : Int :=
  let found := match config.sources.find? (fun sc => sc.id = sourceId) with
    | none => none
    | some sc => (sc.categories.find? (fun c => c.category = category)).map
        (fun c => c.updateFrequency)
  match found with
  | some f => if f = 0 then 60 else f
  | none => 60

/-- Body of the inner loop of `NewsAggregator.checkForChanges` for one
(sourceId, category) pair with the category supported: `true` when the pair
indicates likely changes.  The age test divides by 60·1000 in the source
(`ageMinutes > updateFrequency`); embedded as the equivalent integer
comparison on milliseconds. -/
def changeLikelyForPair (config : AppConfig) (cache : CacheData) (now : Int)
    (sourceId category : String) : Bool :=
  let stats := getCacheStats cache
  match stats.sources.find? (fun s => s.sourceId = sourceId && s.category = category) with
  | none => true
  | some sourceCache =>
    decide (now - sourceCache.lastUpdate > checkUpdateFrequency config sourceId category * 60000)

/-- `NewsAggregator.checkForChanges`: a pure function of the configuration,
the cache state and the clock — the source performs no network I/O here.
`hasAnyChanges` is set (never reset) inside a double loop over enabled
categories and sources supporting them, so the result is an `any`. -/
def checkForChanges (config : AppConfig) (cache : CacheData) (now : Int) : Bool :=
  config.global.enabledCategories.any (fun category =>
    (aggregatorSources config).any (fun p =>
      p.2.contains category && changeLikelyForPair config cache now p.1 category))

/-- Processing of one settled adapter outcome inside
`NewsAggregator.scrapeCategory`'s `forEach` over `Promise.allSettled`
results: returns the contributions to `results`, to `cacheHits`, and the
cache state after this adapter. -/
def scrapeCategoryStep (md5 : String → String) (now : Int) (category : String)
    (cache : CacheData) (sourceId : String) (outcome : Settled ScrapingResult) :
    List ScrapingResult × List ScrapingResult × CacheData :=
  match outcome with
  | Settled.fulfilled value =>
    if value.success then
      if hasChanges md5 cache sourceId category value.items then
        ([value], [], updateCache md5 cache sourceId category value.items now)
      else
        let cachedItems := getCachedItems cache sourceId category
        ([], [{ items := cachedItems
                success := true
                error := none
                timestamp := now
                source := value.source
                category := category }], cache)
    else
      let cachedItems := getCachedItems cache sourceId category
      if cachedItems.length > 0 then
        ([], [{ items := cachedItems
                success := true
                error := none
                timestamp := now
                source := value.source
                category := category }], cache)
      else
        ([value], [], cache)
  | Settled.rejected _ =>
    let cachedItems := getCachedItems cache sourceId category
    if cachedItems.length > 0 then
      ([], [{ items := cachedItems
              success := true
              error := none
              timestamp := now
              source := sourceId
              category := category }], cache)
    else
      ([], [], cache)

/-- The whole `forEach` of `NewsAggregator.scrapeCategory`: fold the settled
outcomes in order, threading the cache and accumulating `results` and
`cacheHits` separately (the source pushes into two distinct arrays). -/
def scrapeCategoryRun (md5 : String → String) (now : Int) (category : String) :
    List (String × Settled ScrapingResult) → CacheData →
    List ScrapingResult × List ScrapingResult × CacheData
  | [], cache => ([], [], cache)
  | (sourceId, outcome) :: rest, cache =>
    let step := scrapeCategoryStep md5 now category cache sourceId outcome
    let tail := scrapeCategoryRun md5 now category rest step.2.2
    (step.1 ++ tail.1, step.2.1 ++ tail.2.1, tail.2.2)

/-- `NewsAggregator.scrapeCategory`, given the settled outcome of each active
source's `scrapeCategory(category)` promise in source-map order: returns the
combined `[...results, ...cacheHits]` batch and the cache state that
`saveCache()` persists. -/
def scrapeCategory (md5 : String → String) (now : Int) (category : String)
    (batch : List (String × Settled ScrapingResult)) (cache : CacheData) :
    List ScrapingResult × CacheData :=
  let run := scrapeCategoryRun md5 now category batch cache
  (run.1 ++ run.2.1, run.2.2)

/-- JS `\w` without the `u` flag: ASCII word characters. -/
def jsIsWordChar (c : Char) : Bool :=
  c.isAlpha || c.isDigit || c = '_'

/-- JS `\s`: WhiteSpace plus LineTerminator code points. -/
def jsIsSpace (c : Char) : Bool :=
  c = ' ' || c = '\t' || c = '\n' || c.toNat = 11 || c.toNat = 12 || c = '\r' ||
  c.toNat = 0xA0 || c.toNat = 0x1680 ||
  (0x2000 ≤ c.toNat && c.toNat ≤ 0x200A) ||
  c.toNat = 0x2028 || c.toNat = 0x2029 || c.toNat = 0x202F || c.toNat = 0x205F ||
  c.toNat = 0x3000 || c.toNat = 0xFEFF

/-- `replace(/\s+/g, ' ')`: each maximal whitespace run becomes one `' '`.
The flag records whether the previous character was inside a run. -/
def collapseWs : Bool → List Char → List Char
  | _, [] => []
  | prevWs, c :: rest =>
    if jsIsSpace c then
      if prevWs then collapseWs true rest
      else ' ' :: collapseWs true rest
    else c :: collapseWs false rest

/-- `String.prototype.trim`. -/
def jsTrim (l : List Char) : List Char :=
  ((l.dropWhile jsIsSpace).reverse.dropWhile jsIsSpace).reverse

/-- `String.prototype.toLowerCase` on one character (Unicode Default Case
Conversion, locale-independent), as a character-to-characters map.  Modelled
exactly on: ASCII; the only two code points whose lowercase mapping contains
ASCII word characters — U+212A KELVIN SIGN → `k` and U+0130 LATIN CAPITAL
LETTER I WITH DOT ABOVE → `i` followed by U+0307; and every case-invariant
character (all CJK among them), which JS maps to itself.  Characters whose
real lowercase is a different non-ASCII character (Greek, Cyrillic, accented
Latin, …) are approximated by the identity; no claim statement depends on
those, since they never produce or remove ASCII word characters. -/
def jsToLower (c : Char) : List Char :=
  if 'A' ≤ c ∧ c ≤ 'Z' then [Char.ofNat (c.toNat + 32)]
  else if c.toNat = 0x212A then ['k']
  else if c.toNat = 0x130 then ['i', Char.ofNat 0x307]
  else [c]

/-- `NewsAggregator.normalizeTitle`.  `toLowerCase` is the character-wise
`jsToLower`; `slice(0, 100)` counts UTF-16 code units in JS, embedded as the
first 100 characters (astral-plane titles are out of modelled scope). -/
def normalizeTitle (title : String) : String :=
  String.mk ((jsTrim (collapseWs false
    ((title.data.flatMap jsToLower).filter
      (fun c => jsIsWordChar c || jsIsSpace c)))).take 100)

/-- The dedup loop of `NewsAggregator.consolidateResults`: `seenTitles` is
the JS `Set` of normalized-title keys, membership-first-wins. -/
def dedupByTitle (seen : List String) : List NewsItem → List NewsItem
  | [] => []
  | item :: rest =>
    let titleKey := normalizeTitle item.title
    if titleKey ∈ seen then dedupByTitle seen rest
    else item :: dedupByTitle (titleKey :: seen) rest

/-- Items contributed to the dedup loop: the source skips unsuccessful
results (`if (!result.success) continue`) and iterates each result's items
in order. -/
def successItems (results : List ScrapingResult) : List NewsItem :=
  (results.filter (fun r => r.success)).flatMap (fun r => r.items)

/-- Comparator order of `sort((a, b) => b.publishedAt.getTime() -
a.publishedAt.getTime())`: `a` may precede `b` exactly when the comparator
is ≤ 0, i.e. publication instants descending. -/
def pubDescLe (a b : NewsItem) : Bool :=
  decide (b.publishedAt ≤ a.publishedAt)

/-- `NewsAggregator.consolidateResults`; `maxItems` is
`configLoader.getGlobalConfig().maxItemsPerFeed`. -/
def consolidateResults (maxItems : Nat) (results : List ScrapingResult) : List NewsItem :=
  (jsSortBy pubDescLe (dedupByTitle [] (successItems results))).take maxItems

/-- `src/utils/FeedRegistry.ts` `FeedInfo`; `lastUpdated` is an ISO instant,
modelled by its millisecond denotation. -/
structure FeedInfo where
  name : String
  category : Option String
  url : String
  filePath : String
  description : String
  itemCount : Nat
  lastUpdated : Int
  sources : List String
deriving DecidableEq, Repr

/-- `src/utils/FeedRegistry.ts` `FeedRegistry` (metadata flattened). -/
structure FeedRegistry where
  totalFeeds : Nat
  lastUpdated : Int
  baseUrl : String
  updateFrequency : String
  feeds : List FeedInfo
deriving DecidableEq, Repr

/-- JS falsiness of the optional `category` field (`!a.category`): absent or
the empty string. -/
def isFalsyCat : Option String → Bool
  | none => true
  | some s => s = ""

/-- The comparator passed to `registry.feeds.sort` in
`FeedRegistryManager.registerFeed`, rendered as `compare a b ≤ 0`
("`a` may stay before `b`"): master pinned first, then falsy-category
entries, then `localeCompare` on categories (which on the ASCII category
names agrees with lexicographic string order). -/
def feedLe (a b : FeedInfo) : Bool :=
  if a.name = "Master Feed" then true
  else if b.name = "Master Feed" then false
  else if isFalsyCat a.category then true
  else if isFalsyCat b.category then false
  else strLe (a.category.getD "") (b.category.getD "")

/-- `category.charAt(0).toUpperCase() + category.slice(1)` (ASCII). -/
def capitalizeFirst (s : String) : String :=
  match s.data with
  | [] => ""
  | c :: rest => String.mk (c.toUpper :: rest)

/-- `FeedRegistryManager.generateDescription`. -/
def generateDescription (name : String) (category : Option String)
    (sources : List String) : String :=
  let sourceList := String.intercalate ", " sources
  if isFalsyCat category then
    "Combined news feed from all categories, aggregated from " ++ sourceList
  else
    capitalizeFirst (category.getD "") ++ " news aggregated from " ++ sourceList
-- `name` is unused by the source body as well; kept for signature fidelity.

/-- The `feedInfo` object `registerFeed` builds: URL from the category
(falsy category → master URL), description defaulted through `||`. -/
def builtFeedInfo (baseUrl : String) (now : Int) (name : String)
    (category : Option String) (filePath : String) (itemCount : Nat)
    (sources : List String) (description : Option String) : FeedInfo :=
  let url := if isFalsyCat category then baseUrl ++ "/feeds/master.xml"
    else baseUrl ++ "/feeds/" ++ category.getD "" ++ ".xml"
  let descriptionFalsy := match description with
    | none => true
    | some d => d = ""
  { name := name
    category := category
    url := url
    filePath := filePath
    description := if descriptionFalsy then generateDescription name category sources
      else description.getD ""
    itemCount := itemCount
    lastUpdated := now
    sources := sources }

/-- `FeedRegistryManager.registerFeed`, as a pure transformation of the
loaded registry value (load/save of the JSON file bracket the body). -/
def registerFeed (baseUrl : String) (now : Int) (registry : FeedRegistry)
    (name : String) (category : Option String) (filePath : String)
    (itemCount : Nat) (sources : List String) (description : Option String) :
    FeedRegistry :=
  let feedInfo : FeedInfo :=
    builtFeedInfo baseUrl now name category filePath itemCount sources description
  let feeds₁ := registry.feeds.filter (fun feed =>
    !(feed.name = name && feed.category = category))
  let feeds₂ := feeds₁ ++ [feedInfo]
  { registry with
    feeds := jsSortBy feedLe feeds₂
    totalFeeds := feeds₂.length
    lastUpdated := now }

/-! ### Specification-side formulations

The definitions below restate parts of the specification's wording
independently of the implementation's data flow; the claim theorems relate
them to the embedded source functions. -/

/-- First-seen-per-key filtering stated the way the spec words it: an item
is kept exactly when no *earlier* item of the traversal has the same
normalized-title key (`earlier` is the already-traversed prefix). -/
def noEarlierDupAux : List NewsItem → List NewsItem → List NewsItem
  | _, [] => []
  | earlier, x :: rest =>
    if earlier.any (fun y => decide (normalizeTitle y.title = normalizeTitle x.title)) then
      noEarlierDupAux (earlier ++ [x]) rest
    else
      x :: noEarlierDupAux (earlier ++ [x]) rest

/-- Keep the first-seen item per normalized-title key. -/
def noEarlierDup (l : List NewsItem) : List NewsItem := noEarlierDupAux [] l

/-- The consolidation algorithm exactly as the claim words it: first-seen
dedup over the concatenation of *all* input results' items (no success
filter), stable sort by publication instant descending, truncation. -/
def consolidateClaimed (maxItems : Nat) (results : List ScrapingResult) : List NewsItem :=
  (jsSortBy pubDescLe (noEarlierDup (results.flatMap (fun r => r.items)))).take maxItems

/-- The update frequency `checkForChanges` effectively uses for a pair:
the configured per-category value, except that a missing or zero configured
value is replaced by 60 (the `|| 60` falsy fallback). -/
def effectiveUpdateFrequency (config : AppConfig) (sourceId category : String) : Int :=
  match config.sources.find? (fun sc => sc.id = sourceId) with
  | none => 60
  | some sc =>
    match sc.categories.find? (fun c => c.category = category) with
    | none => 60
    | some c => if c.updateFrequency = 0 then 60 else c.updateFrequency

/-- Registry descriptors are keyed by (name, category): two descriptors in
the collection never share both. -/
def feedKeyDistinct (a b : FeedInfo) : Prop :=
  ¬(a.name = b.name ∧ a.category = b.category)

instance : DecidableRel feedKeyDistinct :=
  fun a b =>
    decidable_of_iff (¬(a.name = b.name ∧ a.category = b.category)) Iff.rfl

/-- Rank of a feed in the claimed registry order: the designated master
entry first, then entries without a category, then categorized entries. -/
def feedRank (a : FeedInfo) : Nat :=
  if a.name = "Master Feed" then 0 else if isFalsyCat a.category then 1 else 2

/-- The registry order the claim describes: ascending rank, and within the
categorized entries lexicographic by category. -/
def claimFeedOrder (a b : FeedInfo) : Prop :=
  feedRank a < feedRank b ∨
    (feedRank a = feedRank b ∧
      (feedRank a = 2 → strLe (a.category.getD "") (b.category.getD "") = true))

/-! ### Concrete inputs for witnesses and counterexamples -/

/-- A concrete stand-in digest function (witness statements quantify the
digest away; any concrete function instantiates it). -/
def idHash : String → String := fun s => s

/-- The empty cache store a fresh start produces. -/
def emptyCacheData : CacheData :=
  { version := "1.0.0", lastUpdate := 0, sources := [] }

/-- A concrete scraped item. -/
def wItem : NewsItem :=
  { id := "aXRlbTEtU0VUTg"
    title := "Fed Raises Rates"
    description := some "Rates up"
    source := "SETN"
    sourceUrl := "https://example.com/a"
    category := "entertainment"
    tags := ["entertainment", "setn"]
    publishedAt := 1700000000000
    scrapedAt := 1700000400000
    rank := some 1
    imageUrl := none }

/-- A second concrete item with a different title and instant. -/
def wItem2 : NewsItem :=
  { wItem with
    id := "aXRlbTItU0VUTg"
    title := "Market Rally Continues"
    sourceUrl := "https://example.com/b"
    publishedAt := 1700000100000
    rank := some 2 }

/-- Five distinct cached items, echoing the spec's five-item fallback
example. -/
def wFive : List NewsItem :=
  [wItem, wItem2,
   { wItem with id := "aXRlbTM", title := "Story Three", publishedAt := 1700000200000 },
   { wItem with id := "aXRlbTQ", title := "Story Four", publishedAt := 1700000300000 },
   { wItem with id := "aXRlbTU", title := "Story Five", publishedAt := 1700000350000 }]

/-- A cache holding `wFive` for (setn-entertainment, entertainment). -/
def wCacheFive : CacheData :=
  updateCache idHash emptyCacheData "setn-entertainment" "entertainment" wFive 0

/-- A cache whose entry for (hk01-entertainment, entertainment) exists but
holds an empty item list. -/
def emptyItemsCache : CacheData :=
  updateCache idHash emptyCacheData "hk01-entertainment" "entertainment" [] 0

/-- A configuration whose single enabled source configures update frequency
0 for its single category. -/
def cfgC6 : AppConfig :=
  { sources := [{ id := "src1"
                  name := "Source One"
                  srcType := "scraper"
                  baseUrl := "https://example.com"
                  categories := [{ category := "crypto"
                                   endpoint := "/e"
                                   maxItems := 10
                                   updateFrequency := 0 }]
                  rateLimit := 10
                  enabled := true }]
    global := { maxItemsPerFeed := 50
                defaultUpdateFrequency := 60
                enabledCategories := ["crypto"]
                outputDirectory := "feeds"
                baseUrl := "https://example.com" } }

/-- A cache whose (src1, crypto) entry was written at instant 0. -/
def cacheC6 : CacheData :=
  { version := "1.0.0"
    lastUpdate := 0
    sources := [("src1_crypto",
      { sourceId := "src1", category := "crypto", lastUpdate := 0,
        items := [], itemsHash := "h" })] }

/-- A concrete successful fetch result carrying two items. -/
def wFreshResult : ScrapingResult :=
  { items := [wItem, wItem2]
    success := true
    error := none
    timestamp := 5
    source := "SETN"
    category := "entertainment" }

/-- A cache already holding exactly `wFreshResult`'s items for
(setn-entertainment, entertainment), so a re-fetch of the same items is
unchanged. -/
def wCacheSame : CacheData :=
  updateCache idHash emptyCacheData "setn-entertainment" "entertainment"
    [wItem, wItem2] 0

/-- A concrete failed fetch result (adapters report failures with an empty
item list and an error description). -/
def wFailedResult : ScrapingResult :=
  { items := []
    success := false
    error := some "HTTP 503"
    timestamp := 5
    source := "SETN"
    category := "entertainment" }

/-- A failed scraping result that nevertheless carries an item. -/
def cexFailedResult : ScrapingResult :=
  { items := [wItem]
    success := false
    error := some "fetch failed"
    timestamp := 0
    source := "SETN"
    category := "entertainment" }

/-- A purely Chinese headline item (title has no ASCII word characters). -/
def zhItem1 : NewsItem :=
  { wItem with
    id := "emgx", title := "全球市場大漲", source := "HK01",
    sourceUrl := "https://example.com/z1", publishedAt := 200 }

/-- A different purely Chinese headline. -/
def zhItem2 : NewsItem :=
  { wItem with
    id := "emgy", title := "完全不同的新聞", source := "HK01",
    sourceUrl := "https://example.com/z2", publishedAt := 100 }

/-- One successful result carrying the two Chinese-titled items. -/
def zhResults : List ScrapingResult :=
  [{ items := [zhItem1, zhItem2]
     success := true
     error := none
     timestamp := 0
     source := "HK01"
     category := "entertainment" }]

/-- A title consisting of the single character U+212A KELVIN SIGN: it
contains no ASCII word characters, but JS lowercasing turns it into the
ASCII word character `k`. -/
def kelvinTitle : String := String.mk [Char.ofNat 0x212A]

/-- An item whose title is the Kelvin-sign headline. -/
def kelvinItem : NewsItem :=
  { wItem with
    id := "a2Vsdmlu", title := kelvinTitle, source := "HK01",
    sourceUrl := "https://example.com/k", publishedAt := 300 }

/-- One successful result carrying the Kelvin-sign item followed by a
Chinese-titled item — two titles, neither containing any ASCII word
character. -/
def kelvinResults : List ScrapingResult :=
  [{ items := [kelvinItem, zhItem1]
     success := true
     error := none
     timestamp := 0
     source := "HK01"
     category := "entertainment" }]

/-- A registry descriptor for the master feed. -/
def masterFI : FeedInfo :=
  { name := "Master Feed"
    category := none
    url := "https://d/feeds/master.xml"
    filePath := "feeds/master.xml"
    description := "Combined feed"
    itemCount := 12
    lastUpdated := 0
    sources := ["SETN"] }

/-- A registry descriptor for an entertainment feed. -/
def entFI : FeedInfo :=
  { name := "SETN - Entertainment"
    category := some "entertainment"
    url := "https://d/feeds/entertainment.xml"
    filePath := "feeds/entertainment/setn-entertainment.xml"
    description := "Entertainment news aggregated from SETN"
    itemCount := 5
    lastUpdated := 0
    sources := ["SETN"] }

/-- A concrete registry holding the master and one categorized feed. -/
def regW : FeedRegistry :=
  { totalFeeds := 2
    lastUpdated := 0
    baseUrl := "https://d"
    updateFrequency := "Every hour"
    feeds := [masterFI, entFI] }

/-! ### Basic facts about the embedded JS primitives -/

theorem recordLookup_recordSet_self {β : Type} (m : List (String × β)) (k : String) (v : β) :
    recordLookup (recordSet m k v) k = some v := by
  induction m with
  | nil => simp [recordSet, recordLookup]
  | cons p rest ih =>
    obtain ⟨k', v'⟩ := p
    by_cases h : k' = k
    · simp [recordSet, recordLookup, h]
    · simpa [recordSet, recordLookup, h] using ih

theorem convertFromCache_convertToCache (md5 : String → String) (items : List NewsItem) :
    convertFromCache (convertToCache md5 items) = items := by
  induction items with
  | nil => rfl
  | cons x rest ih =>
    simp only [convertToCache, convertFromCache, List.map_cons] at ih ⊢
    exact congrArg (x :: ·) ih

theorem char_eq_of_toNat_eq {a b : Char} (h : a.toNat = b.toNat) : a = b := by
  have hv : a.val = b.val := UInt32.toNat.inj h
  exact Char.ext hv

theorem charListLe_total : ∀ a b : List Char, (charListLe a b || charListLe b a) = true
  | [], _ => by simp [charListLe]
  | _ :: _, [] => by simp [charListLe]
  | a :: as, b :: bs => by
    by_cases h1 : a.toNat < b.toNat
    · simp [charListLe, h1]
    · by_cases h2 : b.toNat < a.toNat
      · simp [charListLe, h1, h2]
      · simpa [charListLe, h1, h2] using charListLe_total as bs

theorem charListLe_trans :
    ∀ a b c : List Char, charListLe a b = true → charListLe b c = true →
      charListLe a c = true
  | [], _, _, _, _ => by simp [charListLe]
  | _ :: _, [], _, h, _ => by simp [charListLe] at h
  | _ :: _, _ :: _, [], _, h2 => by simp [charListLe] at h2
  | a :: as, b :: bs, c :: cs, h1, h2 => by
    by_cases hab : a.toNat < b.toNat
    · by_cases hbc : b.toNat < c.toNat
      · simp [charListLe, Nat.lt_trans hab hbc]
      · by_cases hcb : c.toNat < b.toNat
        · simp [charListLe, hbc, hcb] at h2
        · have hac : a.toNat < c.toNat := by omega
          simp [charListLe, hac]
    · by_cases hba : b.toNat < a.toNat
      · simp [charListLe, hab, hba] at h1
      · by_cases hbc : b.toNat < c.toNat
        · have hac : a.toNat < c.toNat := by omega
          simp [charListLe, hac]
        · by_cases hcb : c.toNat < b.toNat
          · simp [charListLe, hbc, hcb] at h2
          · have hac : ¬a.toNat < c.toNat := by omega
            have hca : ¬c.toNat < a.toNat := by omega
            have tail : charListLe as cs = true :=
              charListLe_trans as bs cs
                (by simpa [charListLe, hab, hba] using h1)
                (by simpa [charListLe, hbc, hcb] using h2)
            simpa [charListLe, hac, hca] using tail

theorem charListLe_antisymm :
    ∀ a b : List Char, charListLe a b = true → charListLe b a = true → a = b
  | [], [], _, _ => rfl
  | [], _ :: _, _, h2 => by simp [charListLe] at h2
  | _ :: _, [], h1, _ => by simp [charListLe] at h1
  | a :: as, b :: bs, h1, h2 => by
    by_cases hab : a.toNat < b.toNat
    · simp [charListLe, hab, Nat.lt_asymm hab] at h2
    · by_cases hba : b.toNat < a.toNat
      · simp [charListLe, hab, hba] at h1
      · have hc : a = b := char_eq_of_toNat_eq (by omega)
        have tail : as = bs :=
          charListLe_antisymm as bs
            (by simpa [charListLe, hab, hba] using h1)
            (by simpa [charListLe, hab, hba] using h2)
        rw [hc, tail]

theorem strLe_trans (a b c : String) (h1 : strLe a b = true) (h2 : strLe b c = true) :
    strLe a c = true :=
  charListLe_trans a.data b.data c.data h1 h2

theorem strLe_total (a b : String) : (strLe a b || strLe b a) = true :=
  charListLe_total a.data b.data

theorem strLe_antisymm (a b : String) (h1 : strLe a b = true) (h2 : strLe b a = true) :
    a = b :=
  String.ext (charListLe_antisymm a.data b.data h1 h2)

theorem jsSortBy_perm {α : Type} (le : α → α → Bool) (l : List α) :
    (jsSortBy le l).Perm l :=
  List.perm_insertionSort _ l

theorem jsSortBy_pairwise {α : Type} (le : α → α → Bool)
    (htrans : ∀ a b c, le a b = true → le b c = true → le a c = true)
    (htotal : ∀ a b, (le a b || le b a) = true) (l : List α) :
    (jsSortBy le l).Pairwise (fun a b => le a b = true) := by
  haveI : IsTrans α (fun a b => le a b = true) := ⟨htrans⟩
  haveI : IsTotal α (fun a b => le a b = true) := ⟨fun a b => by
    have h := htotal a b
    rcases Bool.or_eq_true_iff.mp h with h' | h'
    · exact Or.inl h'
    · exact Or.inr h'⟩
  exact List.sorted_insertionSort _ l

/-! ### Claim C8 -/

/-- C8: after `updateCache(sourceId, category, items)`, `getCachedItems`
returns exactly the stored items — same length and order, every field
preserved, publication and scrape instants exact through the ISO round
trip — and for a key that was never updated it returns the empty list. -/
theorem c8_cache_read_roundtrip (md5 : String → String) (cache : CacheData)
    (sourceId category : String) (items : List NewsItem) (now : Int) :
    getCachedItems (updateCache md5 cache sourceId category items now) sourceId category
      = items
    ∧ (recordLookup cache.sources (getCacheKey sourceId category) = none →
        getCachedItems cache sourceId category = []) := by
  constructor
  · simp only [getCachedItems, updateCache, recordLookup_recordSet_self]
    exact convertFromCache_convertToCache md5 items
  · intro h
    simp [getCachedItems, h]

/-- C8 witness: the round trip at a concrete five-item cache and the empty
read at a concrete never-updated key. -/
theorem c8_cache_read_roundtrip_witness :
    getCachedItems wCacheFive "setn-entertainment" "entertainment" = wFive
    ∧ getCachedItems emptyCacheData "setn-entertainment" "entertainment" = [] :=
  ⟨(c8_cache_read_roundtrip idHash emptyCacheData "setn-entertainment" "entertainment"
      wFive 0).1,
   (c8_cache_read_roundtrip idHash emptyCacheData "setn-entertainment" "entertainment"
      wFive 0).2 rfl⟩

/-! ### Claim C3 -/

/-- C3: the aggregate hash is an order-independent function of the item
set — two item lists with identical members in different orders (i.e.
permutations of each other) produce equal aggregate hashes, for any digest
function. -/
theorem c3_aggregate_hash_order_independent (md5 : String → String)
    (A B : List NewsItem) (h : A.Perm B) :
    generateItemsHash md5 (convertToCache md5 A)
      = generateItemsHash md5 (convertToCache md5 B) := by
  have hperm : ((convertToCache md5 A).map (fun i => i.contentHash)).Perm
      ((convertToCache md5 B).map (fun i => i.contentHash)) :=
    (h.map _).map _
  have hs : jsSortBy strLe ((convertToCache md5 A).map (fun i => i.contentHash))
      = jsSortBy strLe ((convertToCache md5 B).map (fun i => i.contentHash)) := by
    haveI : IsAntisymm String (fun a b => strLe a b = true) :=
      ⟨fun a b h1 h2 => strLe_antisymm a b h1 h2⟩
    exact List.eq_of_perm_of_sorted
      ((jsSortBy_perm strLe _).trans (hperm.trans (jsSortBy_perm strLe _).symm))
      (jsSortBy_pairwise strLe strLe_trans strLe_total _)
      (jsSortBy_pairwise strLe strLe_trans strLe_total _)
  unfold generateItemsHash
  rw [hs]

/-- C3 witness: equal aggregate hashes for a concrete two-item swap. -/
theorem c3_aggregate_hash_order_independent_witness :
    generateItemsHash idHash (convertToCache idHash [wItem, wItem2])
      = generateItemsHash idHash (convertToCache idHash [wItem2, wItem]) :=
  c3_aggregate_hash_order_independent idHash [wItem, wItem2] [wItem2, wItem] (by decide)

/-! ### Claim C2 -/

/-- C2 counterexample: in `emptyItemsCache` an entry *exists* for
(hk01-entertainment, entertainment) and its stored aggregate hash (`""`
under the identity digest) equals the candidate hash of the same (empty)
item list, yet `hasChanges` returns `true` — against the claim, which
demands `false` whenever an entry exists and the hashes agree. -/
theorem c2_hasChanges_cex :
    recordLookup emptyItemsCache.sources (getCacheKey "hk01-entertainment" "entertainment")
      = some { sourceId := "hk01-entertainment", category := "entertainment",
               lastUpdate := 0, items := [], itemsHash := "" }
    ∧ generateItemsHash idHash (convertToCache idHash ([] : List NewsItem)) = ""
    ∧ hasChanges idHash emptyItemsCache "hk01-entertainment" "entertainment" [] = true :=
  ⟨rfl, rfl, rfl⟩

/-- C2 (amended): `hasChanges` is true exactly when the entry is missing
*or the stored entry's item list is empty* or the aggregate hashes differ;
in particular it is true for a never-seen key, and false on a repeated call
with the same items once `updateCache` has stored a non-empty list. -/
theorem c2_hasChanges_characterization (md5 : String → String) (cache : CacheData)
    (sourceId category : String) (items : List NewsItem) :
    (recordLookup cache.sources (getCacheKey sourceId category) = none →
      hasChanges md5 cache sourceId category items = true)
    ∧ (∀ sc, recordLookup cache.sources (getCacheKey sourceId category) = some sc →
        (hasChanges md5 cache sourceId category items = true ↔
          sc.items = [] ∨ sc.itemsHash ≠ generateItemsHash md5 (convertToCache md5 items)))
    ∧ (∀ now, items ≠ [] →
        hasChanges md5 (updateCache md5 cache sourceId category items now)
          sourceId category items = false) := by
  refine ⟨?_, ?_, ?_⟩
  · intro h
    simp [hasChanges, h]
  · intro sc h
    simp only [hasChanges, h]
    by_cases hempty : sc.items.length = 0
    · simp [hempty, List.length_eq_zero.mp hempty]
    · have hne : ¬sc.items = [] := fun he => hempty (by simp [he])
      simp [hempty, hne, bne_iff_ne]
  · intro now hne
    have hlen : ¬(convertToCache md5 items).length = 0 := by
      simp only [convertToCache, List.length_map, List.length_eq_zero]
      exact hne
    simp [hasChanges, updateCache, recordLookup_recordSet_self, hlen]

/-- C2 witness: at a concrete item list, `hasChanges` is true for the
never-seen key and false right after the corresponding `updateCache`. -/
theorem c2_hasChanges_characterization_witness :
    hasChanges idHash emptyCacheData "setn-entertainment" "entertainment" [wItem] = true
    ∧ hasChanges idHash
        (updateCache idHash emptyCacheData "setn-entertainment" "entertainment" [wItem] 3)
        "setn-entertainment" "entertainment" [wItem] = false :=
  ⟨(c2_hasChanges_characterization idHash emptyCacheData "setn-entertainment"
      "entertainment" [wItem]).1 rfl,
   (c2_hasChanges_characterization idHash emptyCacheData "setn-entertainment"
      "entertainment" [wItem]).2.2 3 (by decide)⟩

/-! ### Claim C1 -/

/-- C1: for a successful settled fetch — if the cache reports a change, the
orchestrator replaces the cache entry wholesale with the fresh items and
emits the fresh result; if it reports no change, the fresh items are
discarded and the emitted result carries the cached items with
success = true (cache untouched). -/
theorem c1_success_change_decision (md5 : String → String) (now : Int)
    (category sourceId : String) (r : ScrapingResult) (cache : CacheData)
    (hsucc : r.success = true) :
    (hasChanges md5 cache sourceId category r.items = true →
      scrapeCategory md5 now category [(sourceId, Settled.fulfilled r)] cache
        = ([r], updateCache md5 cache sourceId category r.items now)
      ∧ recordLookup (updateCache md5 cache sourceId category r.items now).sources
          (getCacheKey sourceId category)
        = some { sourceId := sourceId, category := category, lastUpdate := now,
                 items := convertToCache md5 r.items,
                 itemsHash := generateItemsHash md5 (convertToCache md5 r.items) })
    ∧ (hasChanges md5 cache sourceId category r.items = false →
      scrapeCategory md5 now category [(sourceId, Settled.fulfilled r)] cache
        = ([{ items := getCachedItems cache sourceId category, success := true,
              error := none, timestamp := now, source := r.source,
              category := category }], cache)) := by
  constructor
  · intro hch
    refine ⟨?_, ?_⟩
    · simp [scrapeCategory, scrapeCategoryRun, scrapeCategoryStep, hsucc, hch]
    · simp [updateCache, recordLookup_recordSet_self]
  · intro hch
    simp [scrapeCategory, scrapeCategoryRun, scrapeCategoryStep, hsucc, hch]

/-- C1 witness: the changed branch at the empty cache and the unchanged
branch at a cache already holding the same items. -/
theorem c1_success_change_decision_witness :
    scrapeCategory idHash 7 "entertainment"
        [("setn-entertainment", Settled.fulfilled wFreshResult)] emptyCacheData
      = ([wFreshResult],
         updateCache idHash emptyCacheData "setn-entertainment" "entertainment"
           wFreshResult.items 7)
    ∧ scrapeCategory idHash 7 "entertainment"
        [("setn-entertainment", Settled.fulfilled wFreshResult)] wCacheSame
      = ([{ items := getCachedItems wCacheSame "setn-entertainment" "entertainment",
            success := true, error := none, timestamp := 7,
            source := wFreshResult.source, category := "entertainment" }], wCacheSame) :=
  ⟨((c1_success_change_decision idHash 7 "entertainment" "setn-entertainment"
      wFreshResult emptyCacheData rfl).1 (by decide)).1,
   (c1_success_change_decision idHash 7 "entertainment" "setn-entertainment"
      wFreshResult wCacheSame rfl).2 (by decide)⟩

/-! ### Claim C4 -/

/-- C4: when a fetch fails (failed result or rejected promise) and the
cache holds a non-empty item list for the pair, the orchestrator emits a
result whose items are exactly the cached items with success = true. -/
theorem c4_failure_cached_fallback (md5 : String → String) (now : Int)
    (category sourceId reason : String) (r : ScrapingResult) (cache : CacheData)
    (hfail : r.success = false)
    (hcached : getCachedItems cache sourceId category ≠ []) :
    scrapeCategory md5 now category [(sourceId, Settled.fulfilled r)] cache
      = ([{ items := getCachedItems cache sourceId category, success := true,
            error := none, timestamp := now, source := r.source,
            category := category }], cache)
    ∧ scrapeCategory md5 now category [(sourceId, Settled.rejected reason)] cache
      = ([{ items := getCachedItems cache sourceId category, success := true,
            error := none, timestamp := now, source := sourceId,
            category := category }], cache) := by
  have hlen : (getCachedItems cache sourceId category).length > 0 := by
    cases h : getCachedItems cache sourceId category with
    | nil => exact absurd h hcached
    | cons a l => simp
  constructor <;>
    simp [scrapeCategory, scrapeCategoryRun, scrapeCategoryStep, hfail, hlen]

/-- C4 witness: with five cached items, both failure modes emit exactly
those five items with success = true. -/
theorem c4_failure_cached_fallback_witness :
    (getCachedItems wCacheFive "setn-entertainment" "entertainment").length = 5
    ∧ scrapeCategory idHash 9 "entertainment"
        [("setn-entertainment", Settled.fulfilled wFailedResult)] wCacheFive
      = ([{ items := getCachedItems wCacheFive "setn-entertainment" "entertainment",
            success := true, error := none, timestamp := 9,
            source := wFailedResult.source, category := "entertainment" }], wCacheFive)
    ∧ scrapeCategory idHash 9 "entertainment"
        [("setn-entertainment", Settled.rejected "timeout")] wCacheFive
      = ([{ items := getCachedItems wCacheFive "setn-entertainment" "entertainment",
            success := true, error := none, timestamp := 9,
            source := "setn-entertainment", category := "entertainment" }], wCacheFive) :=
  ⟨rfl,
   (c4_failure_cached_fallback idHash 9 "entertainment" "setn-entertainment" "timeout"
      wFailedResult wCacheFive rfl (by decide)).1,
   (c4_failure_cached_fallback idHash 9 "entertainment" "setn-entertainment" "timeout"
      wFailedResult wCacheFive rfl (by decide)).2⟩

/-! ### Claim C5 -/

/-- C5 counterexample: a rejected fetch with an empty cache yields an empty
batch — the returned results contain no failed `ScrapeResult` for that
source at all, against the claim that one is always present. -/
theorem c5_rejected_empty_cache_cex :
    scrapeCategory idHash 0 "entertainment"
        [("setn-entertainment", Settled.rejected "network down")] emptyCacheData
      = ([], emptyCacheData)
    ∧ getCachedItems emptyCacheData "setn-entertainment" "entertainment" = [] :=
  ⟨rfl, rfl⟩

/-- C5 (amended): with an empty cache for the pair — a fetch that settles
as a failed `ScrapingResult` is emitted as that failed result in the batch,
while a rejected promise contributes nothing to the batch (the failure is
only logged); in both cases the orchestrator returns normally (outcomes are
data, no exception aborts the run). -/
theorem c5_failure_empty_cache (md5 : String → String) (now : Int)
    (category sourceId reason : String) (r : ScrapingResult) (cache : CacheData)
    (hempty : getCachedItems cache sourceId category = []) :
    (r.success = false →
      scrapeCategory md5 now category [(sourceId, Settled.fulfilled r)] cache
        = ([r], cache))
    ∧ scrapeCategory md5 now category [(sourceId, Settled.rejected reason)] cache
      = ([], cache) := by
  constructor
  · intro hfail
    simp [scrapeCategory, scrapeCategoryRun, scrapeCategoryStep, hfail, hempty]
  · simp [scrapeCategory, scrapeCategoryRun, scrapeCategoryStep, hempty]

/-- C5 witness: at the empty cache, a concrete failed result is emitted
as-is and a concrete rejection is dropped from the batch. -/
theorem c5_failure_empty_cache_witness :
    scrapeCategory idHash 0 "entertainment"
        [("setn-entertainment", Settled.fulfilled wFailedResult)] emptyCacheData
      = ([wFailedResult], emptyCacheData)
    ∧ scrapeCategory idHash 0 "entertainment"
        [("setn-entertainment", Settled.rejected "timeout")] emptyCacheData
      = ([], emptyCacheData) :=
  ⟨(c5_failure_empty_cache idHash 0 "entertainment" "setn-entertainment" "timeout"
      wFailedResult emptyCacheData rfl).1 rfl,
   (c5_failure_empty_cache idHash 0 "entertainment" "setn-entertainment" "timeout"
      wFailedResult emptyCacheData rfl).2⟩

/-! ### Claim C6 -/

theorem checkUpdateFrequency_eq_effective (config : AppConfig)
    (sourceId category : String) :
    checkUpdateFrequency config sourceId category
      = effectiveUpdateFrequency config sourceId category := by
  unfold checkUpdateFrequency effectiveUpdateFrequency
  dsimp only
  cases hfind : config.sources.find? (fun sc => sc.id = sourceId) with
  | none => simp only [hfind]
  | some sc =>
    simp only [hfind]
    cases hcat : sc.categories.find? (fun c => c.category = category) with
    | none => simp only [hcat, Option.map_none']
    | some c => simp only [hcat, Option.map_some']

theorem changeLikelyForPair_iff (config : AppConfig) (cache : CacheData)
    (now : Int) (sourceId category : String)
    (hpw : (getCacheStats cache).sources.Pairwise
      (fun a b => ¬(a.sourceId = b.sourceId ∧ a.category = b.category))) :
    changeLikelyForPair config cache now sourceId category = true ↔
      ((∀ s ∈ (getCacheStats cache).sources,
          ¬(s.sourceId = sourceId ∧ s.category = category)) ∨
        ∃ s ∈ (getCacheStats cache).sources,
          s.sourceId = sourceId ∧ s.category = category ∧
            now - s.lastUpdate
              > effectiveUpdateFrequency config sourceId category * 60000) := by
  unfold changeLikelyForPair
  dsimp only
  cases hfind : (getCacheStats cache).sources.find?
      (fun s => s.sourceId = sourceId && s.category = category) with
  | none =>
    have hall := List.find?_eq_none.mp hfind
    constructor
    · intro _
      refine Or.inl (fun s hs hcontra => ?_)
      have := hall s hs
      simp [hcontra.1, hcontra.2] at this
    · intro _
      rfl
  | some s0 =>
    have hmem0 := List.mem_of_find?_eq_some hfind
    have hp0 : s0.sourceId = sourceId ∧ s0.category = category := by
      simpa using List.find?_some hfind
    dsimp only
    rw [checkUpdateFrequency_eq_effective]
    simp only [decide_eq_true_eq]
    constructor
    · intro h
      exact Or.inr ⟨s0, hmem0, hp0.1, hp0.2, h⟩
    · rintro (hleft | ⟨s, hs, h1, h2, hstale⟩)
      · exact absurd hp0 (hleft s0 hmem0)
      · have hsym : Symmetric
            (fun a b : CacheStatsSource =>
              ¬(a.sourceId = b.sourceId ∧ a.category = b.category)) :=
          fun x y hxy ⟨e1, e2⟩ => hxy ⟨e1.symm, e2.symm⟩
        have hs_eq : s = s0 := by
          by_contra hne
          exact (hpw.forall hsym hs hmem0 hne)
            ⟨h1.trans hp0.1.symm, h2.trans hp0.2.symm⟩
        rw [hs_eq] at hstale
        exact hstale

/-- C6 counterexample: for the enabled pair (src1, crypto) a cache entry
exists that is 30 minutes old while the *configured* update frequency is 0
minutes — the entry is older than its configured frequency, so the claim
demands `true` — yet `checkForChanges` returns `false` (the `|| 60` falsy
fallback replaces the configured 0 by 60). -/
theorem c6_frequency_zero_cex :
    checkForChanges cfgC6 cacheC6 1800000 = false
    ∧ "crypto" ∈ cfgC6.global.enabledCategories
    ∧ ("src1", ["crypto"]) ∈ aggregatorSources cfgC6
    ∧ (getCacheStats cacheC6).sources
        = [{ sourceId := "src1", category := "crypto", itemCount := 0, lastUpdate := 0 }]
    ∧ ((cfgC6.sources.head?.bind (fun sc => sc.categories.head?)).map
        (fun c => c.updateFrequency)) = some 0
    ∧ ((1800000 : Int) - 0 > 0 * 60000) := by
  refine ⟨rfl, ?_, ?_, rfl, rfl, by decide⟩
  · decide
  · decide

/-- C6 (amended): `checkForChanges` — a pure function of configuration and
cache state, performing no fetches — returns `true` exactly when some
enabled (source, category) pair has its cache entry missing or older than
its *effective* update frequency (the configured value, except that a
missing or zero configured value is replaced by 60 minutes); equivalently
it returns `false` exactly when every such pair has an entry no older than
its effective frequency. -/
theorem c6_checkForChanges_characterization (config : AppConfig)
    (cache : CacheData) (now : Int)
    (hpw : (getCacheStats cache).sources.Pairwise
      (fun a b => ¬(a.sourceId = b.sourceId ∧ a.category = b.category))) :
    checkForChanges config cache now = true ↔
      ∃ category ∈ config.global.enabledCategories,
        ∃ p ∈ aggregatorSources config, category ∈ p.2 ∧
          ((∀ s ∈ (getCacheStats cache).sources,
              ¬(s.sourceId = p.1 ∧ s.category = category)) ∨
            ∃ s ∈ (getCacheStats cache).sources,
              s.sourceId = p.1 ∧ s.category = category ∧
                now - s.lastUpdate
                  > effectiveUpdateFrequency config p.1 category * 60000) := by
  unfold checkForChanges
  simp only [List.any_eq_true, Bool.and_eq_true]
  constructor
  · rintro ⟨category, hcat, p, hp, hcontains, hchange⟩
    exact ⟨category, hcat, p, hp, by simpa using hcontains,
      (changeLikelyForPair_iff config cache now p.1 category hpw).mp hchange⟩
  · rintro ⟨category, hcat, p, hp, hmem, hpc⟩
    exact ⟨category, hcat, p, hp, by simpa using hmem,
      (changeLikelyForPair_iff config cache now p.1 category hpw).mpr hpc⟩

/-- C6 witness: on the empty cache every entry is missing, so the
characterization yields `true` at a concrete configuration. -/
theorem c6_checkForChanges_characterization_witness :
    checkForChanges cfgC6 emptyCacheData 1800000 = true :=
  (c6_checkForChanges_characterization cfgC6 emptyCacheData 1800000
      (by simp [getCacheStats, emptyCacheData])).mpr
    ⟨"crypto", by decide, ("src1", ["crypto"]), by decide, by decide,
      Or.inl (fun s hs => by simp [getCacheStats, emptyCacheData] at hs)⟩

/-! ### Claim C7 -/

theorem pubDescLe_trans (a b c : NewsItem) (h1 : pubDescLe a b = true)
    (h2 : pubDescLe b c = true) : pubDescLe a c = true := by
  simp only [pubDescLe, decide_eq_true_eq] at h1 h2 ⊢
  exact le_trans h2 h1

theorem pubDescLe_total (a b : NewsItem) : (pubDescLe a b || pubDescLe b a) = true := by
  simp only [pubDescLe, Bool.or_eq_true, decide_eq_true_eq]
  exact le_total b.publishedAt a.publishedAt

theorem dedupByTitle_eq_noEarlierDupAux :
    ∀ (l : List NewsItem) (seen : List String) (earlier : List NewsItem),
      (∀ k : String, k ∈ seen ↔ ∃ y ∈ earlier, normalizeTitle y.title = k) →
      dedupByTitle seen l = noEarlierDupAux earlier l
  | [], _, _, _ => rfl
  | x :: rest, seen, earlier, hlink => by
    have hcond : normalizeTitle x.title ∈ seen ↔
        earlier.any (fun y =>
          decide (normalizeTitle y.title = normalizeTitle x.title)) = true := by
      rw [hlink]
      simp [List.any_eq_true]
    unfold dedupByTitle noEarlierDupAux
    by_cases hmem : normalizeTitle x.title ∈ seen
    · rw [if_pos hmem, if_pos (hcond.mp hmem)]
      refine dedupByTitle_eq_noEarlierDupAux rest seen (earlier ++ [x]) (fun k => ?_)
      constructor
      · intro hk
        obtain ⟨y, hy, he⟩ := (hlink k).mp hk
        exact ⟨y, List.mem_append_left _ hy, he⟩
      · rintro ⟨y, hy, he⟩
        rcases List.mem_append.mp hy with hy | hy
        · exact (hlink k).mpr ⟨y, hy, he⟩
        · rw [List.mem_singleton] at hy
          subst hy
          rw [← he]
          exact hmem
    · rw [if_neg hmem, if_neg (fun hc => hmem (hcond.mpr hc))]
      have hlink' : ∀ k : String, k ∈ normalizeTitle x.title :: seen ↔
          ∃ y ∈ earlier ++ [x], normalizeTitle y.title = k := by
        intro k
        simp only [List.mem_cons, List.mem_append, List.mem_singleton]
        constructor
        · rintro (hk | hk)
          · exact ⟨x, Or.inr (Or.inl rfl), hk.symm⟩
          · obtain ⟨y, hy, he⟩ := (hlink k).mp hk
            exact ⟨y, Or.inl hy, he⟩
        · rintro ⟨y, hy | hy | hy, he⟩
          · exact Or.inr ((hlink k).mpr ⟨y, hy, he⟩)
          · subst hy
            exact Or.inl he.symm
          · exact absurd hy (List.not_mem_nil y)
      exact congrArg (x :: ·)
        (dedupByTitle_eq_noEarlierDupAux rest (normalizeTitle x.title :: seen)
          (earlier ++ [x]) hlink')

theorem dedupByTitle_eq_noEarlierDup (l : List NewsItem) :
    dedupByTitle [] l = noEarlierDup l :=
  dedupByTitle_eq_noEarlierDupAux l [] [] (fun k => by simp)

/-- C7 counterexample: a failed result carrying an item — the claimed
algorithm (first-seen dedup over the concatenated *input* results, sort,
truncate) keeps the item, but `consolidateResults` drops it, because the
code skips unsuccessful results entirely. -/
theorem c7_failed_items_cex :
    consolidateResults 10 [cexFailedResult] = []
    ∧ consolidateClaimed 10 [cexFailedResult] = [wItem]
    ∧ cexFailedResult.items = [wItem] :=
  ⟨rfl, rfl, rfl⟩

/-- C7 (amended): `consolidateResults` keeps only the first-seen item per
normalized-title key among the items of the *successful* input results
(failed results contribute nothing), first-seen in iteration order over
their concatenation; it stably sorts the deduplicated items by publication
instant descending and truncates to the configured maximum; empty input
yields empty output.  Stated against the spec-worded first-seen filter
`noEarlierDup` and the stable-sort embedding. -/
theorem c7_consolidate_characterization (maxItems : Nat)
    (results : List ScrapingResult) :
    consolidateResults maxItems results
      = (jsSortBy pubDescLe (noEarlierDup (successItems results))).take maxItems
    ∧ (consolidateResults maxItems results).Pairwise
        (fun a b => b.publishedAt ≤ a.publishedAt)
    ∧ consolidateResults maxItems ([] : List ScrapingResult) = [] := by
  refine ⟨?_, ?_, by simp [consolidateResults, successItems, jsSortBy, dedupByTitle]⟩
  · unfold consolidateResults
    rw [dedupByTitle_eq_noEarlierDup]
  · have hs := jsSortBy_pairwise pubDescLe pubDescLe_trans pubDescLe_total
      (dedupByTitle [] (successItems results))
    have ht : (consolidateResults maxItems results).Pairwise
        (fun a b => pubDescLe a b = true) :=
      List.Pairwise.sublist (List.take_sublist maxItems _) hs
    exact ht.imp (fun h => by simpa [pubDescLe] using h)

/-! ### Claim C10 -/

theorem collapseWs_allSpace_true (l : List Char)
    (h : ∀ c ∈ l, jsIsSpace c = true) : collapseWs true l = [] := by
  induction l with
  | nil => rfl
  | cons c rest ih =>
    have hc := h c (List.mem_cons_self c rest)
    simp only [collapseWs, hc, if_true]
    exact ih (fun d hd => h d (List.mem_cons_of_mem c hd))

theorem jsTrim_collapse_allSpace (l : List Char)
    (h : ∀ c ∈ l, jsIsSpace c = true) : jsTrim (collapseWs false l) = [] := by
  cases l with
  | nil => rfl
  | cons c rest =>
    have hc : jsIsSpace c = true := h c (List.mem_cons_self c rest)
    have hrest : collapseWs true rest = [] :=
      collapseWs_allSpace_true rest (fun d hd => h d (List.mem_cons_of_mem c hd))
    simp only [collapseWs, hc, if_true, hrest]
    rfl

theorem normalizeTitle_lowered_no_word_empty (t : String)
    (h : ∀ c ∈ t.data.flatMap jsToLower, jsIsWordChar c = false) :
    normalizeTitle t = "" := by
  unfold normalizeTitle
  have hall : ∀ c ∈ (t.data.flatMap jsToLower).filter
      (fun c => jsIsWordChar c || jsIsSpace c), jsIsSpace c = true := by
    intro c hc
    rw [List.mem_filter] at hc
    obtain ⟨hmem, hcond⟩ := hc
    have hw := h c hmem
    rcases Bool.or_eq_true_iff.mp hcond with hx | hx
    · rw [hw] at hx
      exact absurd hx (by simp)
    · exact hx
  rw [jsTrim_collapse_allSpace _ hall]
  rfl

theorem dedupByTitle_keys_nodup :
    ∀ (l : List NewsItem) (seen : List String),
      ((dedupByTitle seen l).map (fun x => normalizeTitle x.title)).Nodup
      ∧ ∀ k ∈ (dedupByTitle seen l).map (fun x => normalizeTitle x.title), k ∉ seen
  | [], _ => ⟨List.nodup_nil, by simp [dedupByTitle]⟩
  | x :: rest, seen => by
    by_cases hmem : normalizeTitle x.title ∈ seen
    · simpa [dedupByTitle, hmem] using dedupByTitle_keys_nodup rest seen
    · have ih := dedupByTitle_keys_nodup rest (normalizeTitle x.title :: seen)
      unfold dedupByTitle
      rw [if_neg hmem]
      constructor
      · simp only [List.map_cons, List.nodup_cons]
        exact ⟨fun hk => (ih.2 _ hk) (List.mem_cons_self _ _), ih.1⟩
      · intro k hk
        simp only [List.map_cons, List.mem_cons] at hk
        rcases hk with rfl | hk
        · exact hmem
        · exact fun hkseen => (ih.2 k hk) (List.mem_cons_of_mem _ hkseen)

theorem dedupByTitle_find_first :
    ∀ (l : List NewsItem) (seen : List String) (x : NewsItem),
      x ∈ dedupByTitle seen l →
      normalizeTitle x.title ∉ seen ∧
        l.find? (fun y => decide (normalizeTitle y.title = normalizeTitle x.title))
          = some x
  | [], _, x, hx => absurd hx (by simp [dedupByTitle])
  | y :: rest, seen, x, hx => by
    unfold dedupByTitle at hx
    by_cases hmem : normalizeTitle y.title ∈ seen
    · rw [if_pos hmem] at hx
      obtain ⟨hns, hfind⟩ := dedupByTitle_find_first rest seen x hx
      have hne : ¬(normalizeTitle y.title = normalizeTitle x.title) :=
        fun he => hns (he ▸ hmem)
      refine ⟨hns, ?_⟩
      rw [List.find?_cons_of_neg _ (by simpa using hne)]
      exact hfind
    · rw [if_neg hmem] at hx
      rcases List.mem_cons.mp hx with rfl | hx
      · exact ⟨hmem, List.find?_cons_of_pos _ (by simp)⟩
      · obtain ⟨hns, hfind⟩ :=
          dedupByTitle_find_first rest (normalizeTitle y.title :: seen) x hx
        have hne : ¬(normalizeTitle y.title = normalizeTitle x.title) :=
          fun he => hns (by rw [← he]; exact List.mem_cons_self _ _)
        refine ⟨fun hs => hns (List.mem_cons_of_mem _ hs), ?_⟩
        rw [List.find?_cons_of_neg _ (by simpa using hne)]
        exact hfind

theorem length_filter_le_one_of_nodup_map {α : Type} (f : α → String) (v : String) :
    ∀ l : List α, (l.map f).Nodup →
      (l.filter (fun x => decide (f x = v))).length ≤ 1
  | [], _ => by simp
  | x :: rest, hnd => by
    simp only [List.map_cons, List.nodup_cons] at hnd
    by_cases hx : f x = v
    · have hrest : rest.filter (fun x => decide (f x = v)) = [] := by
        rw [List.filter_eq_nil_iff]
        intro a ha hpa
        rw [decide_eq_true_eq] at hpa
        exact hnd.1 (List.mem_map.mpr ⟨a, ha, by rw [hpa, hx]⟩)
      simp [List.filter_cons, hx, hrest]
    · simpa [List.filter_cons, hx] using
        length_filter_le_one_of_nodup_map f v rest hnd.2

/-- C10 counterexample: the title consisting of the single character U+212A
KELVIN SIGN contains no ASCII word characters, yet it normalizes to `"k"`,
not `""` (JS lowercasing maps U+212A to ASCII `k`); and in one
`consolidateResults` call over that item followed by a Chinese-titled item —
two titles with no ASCII word characters — *both* are kept: the later one
is not discarded as a duplicate, against the claim. -/
theorem c10_kelvin_cex :
    kelvinTitle.data.all (fun c => !jsIsWordChar c) = true
    ∧ normalizeTitle kelvinTitle = "k"
    ∧ kelvinItem.title = kelvinTitle
    ∧ zhItem1.title.data.all (fun c => !jsIsWordChar c) = true
    ∧ consolidateResults 20 kelvinResults = [kelvinItem, zhItem1] :=
  ⟨rfl, rfl, rfl, rfl, rfl⟩

/-- C10 (amended): title normalization deletes every character outside
ASCII word characters and whitespace *after JS lowercasing*, so any title
whose lowercased form contains no ASCII word characters normalizes to `""`
(purely Chinese headlines qualify, CJK being case-invariant — but e.g.
U+212A lowercases to ASCII `k`, so a title with no ASCII word characters
need not); consequently one `consolidateResults` call keeps at most one
item whose title normalizes to `""`, and any such item it keeps is the
*first* empty-key item of the concatenated successful inputs — every later
one is discarded as a duplicate even when the titles differ entirely. -/
theorem c10_title_key_collapse :
    (∀ t : String, (∀ c ∈ t.data.flatMap jsToLower, jsIsWordChar c = false) →
        normalizeTitle t = "")
    ∧ (∀ (maxItems : Nat) (results : List ScrapingResult),
        ((consolidateResults maxItems results).filter
          (fun x => decide (normalizeTitle x.title = ""))).length ≤ 1)
    ∧ (∀ (maxItems : Nat) (results : List ScrapingResult) (x : NewsItem),
        x ∈ consolidateResults maxItems results → normalizeTitle x.title = "" →
        (successItems results).find?
          (fun y => decide (normalizeTitle y.title = "")) = some x) := by
  refine ⟨normalizeTitle_lowered_no_word_empty, ?_, ?_⟩
  · intro maxItems results
    have hD := (dedupByTitle_keys_nodup (successItems results) []).1
    have hsorted : ((jsSortBy pubDescLe (dedupByTitle [] (successItems results))).map
        (fun x => normalizeTitle x.title)).Nodup :=
      (((jsSortBy_perm pubDescLe _).map _).symm).nodup hD
    have htake : ((consolidateResults maxItems results).map
        (fun x => normalizeTitle x.title)).Nodup := by
      rw [consolidateResults, List.map_take]
      exact List.Sublist.nodup (List.take_sublist _ _) hsorted
    exact length_filter_le_one_of_nodup_map _ "" _ htake
  · intro maxItems results x hx hkey
    have hmem : x ∈ dedupByTitle [] (successItems results) :=
      ((jsSortBy_perm pubDescLe _).mem_iff).mp (List.mem_of_mem_take hx)
    obtain ⟨_, hfind⟩ := dedupByTitle_find_first (successItems results) [] x hmem
    have hp : (fun y : NewsItem => decide (normalizeTitle y.title = normalizeTitle x.title))
        = (fun y : NewsItem => decide (normalizeTitle y.title = "")) := by
      funext y
      rw [hkey]
    rw [hp] at hfind
    exact hfind

/-- C10 witness: a concrete Chinese headline (case-invariant under
lowercasing) normalizes to the empty string, and in a concrete run with two
entirely different Chinese titles only the first survives consolidation. -/
theorem c10_title_key_collapse_witness :
    normalizeTitle "全球市場大漲" = ""
    ∧ ((consolidateResults 20 zhResults).filter
        (fun x => decide (normalizeTitle x.title = ""))).length ≤ 1
    ∧ (successItems zhResults).find?
        (fun y => decide (normalizeTitle y.title = "")) = some zhItem1 :=
  ⟨c10_title_key_collapse.1 "全球市場大漲" (by decide),
   c10_title_key_collapse.2.1 20 zhResults,
   c10_title_key_collapse.2.2 20 zhResults zhItem1 (by decide) (by decide)⟩

/-! ### Claim C9 -/

theorem feedLe_trans (a b c : FeedInfo) (h1 : feedLe a b = true)
    (h2 : feedLe b c = true) : feedLe a c = true := by
  unfold feedLe at h1 h2 ⊢
  by_cases ha : a.name = "Master Feed"
  · simp [ha]
  · by_cases hb : b.name = "Master Feed"
    · simp [ha, hb] at h1
    · by_cases hc : c.name = "Master Feed"
      · simp [hb, hc] at h2
      · by_cases hfa : isFalsyCat a.category
        · simp [ha, hc, hfa]
        · by_cases hfb : isFalsyCat b.category
          · simp [ha, hb, hfa, hfb] at h1
          · by_cases hfc : isFalsyCat c.category
            · simp [hb, hc, hfb, hfc] at h2
            · simp [ha, hb, hc, hfa, hfb, hfc] at h1 h2 ⊢
              exact strLe_trans _ _ _ h1 h2

theorem feedLe_total (a b : FeedInfo) : (feedLe a b || feedLe b a) = true := by
  unfold feedLe
  by_cases ha : a.name = "Master Feed"
  · simp [ha]
  · by_cases hb : b.name = "Master Feed"
    · simp [ha, hb]
    · by_cases hfa : isFalsyCat a.category
      · simp [ha, hb, hfa]
      · by_cases hfb : isFalsyCat b.category
        · simp [ha, hb, hfa, hfb]
        · simp [ha, hb, hfa, hfb]
          rcases Bool.or_eq_true_iff.mp (strLe_total (a.category.getD "") (b.category.getD "")) with h | h
          · exact Or.inl h
          · exact Or.inr h

theorem feedLe_imp_claimFeedOrder (a b : FeedInfo) (h : feedLe a b = true) :
    claimFeedOrder a b := by
  unfold feedLe at h
  unfold claimFeedOrder feedRank
  by_cases ha : a.name = "Master Feed"
  · by_cases hb : b.name = "Master Feed"
    · right
      simp [ha, hb]
    · by_cases hfb : isFalsyCat b.category
      · left; simp [ha, hb, hfb]
      · left; simp [ha, hb, hfb]
  · by_cases hb : b.name = "Master Feed"
    · simp [ha, hb] at h
    · by_cases hfa : isFalsyCat a.category
      · by_cases hfb : isFalsyCat b.category
        · right; simp [ha, hb, hfa, hfb]
        · left; simp [ha, hb, hfa, hfb]
      · by_cases hfb : isFalsyCat b.category
        · simp [ha, hb, hfa, hfb] at h
        · right
          constructor
          · simp [ha, hb, hfa, hfb]
          · intro _
            simpa [ha, hb, hfa, hfb] using h

theorem feedKeyDistinct_symm : Symmetric feedKeyDistinct :=
  fun _ _ hxy ⟨e1, e2⟩ => hxy ⟨e1.symm, e2.symm⟩

/-- C9: `registerFeed` preserves at-most-one-descriptor-per-(name, category)
key, the registered descriptor is present and is the only one under its
key, and the resulting collection is ordered: the designated master entry
first, then entries without a category, then the rest in lexicographic
order of their category. -/
theorem c9_registry_upsert_sorted (baseUrl : String) (now : Int)
    (registry : FeedRegistry) (name : String) (category : Option String)
    (filePath : String) (itemCount : Nat) (sources : List String)
    (description : Option String)
    (hpw : registry.feeds.Pairwise feedKeyDistinct) :
    (registerFeed baseUrl now registry name category filePath itemCount sources
        description).feeds.Pairwise feedKeyDistinct
    ∧ builtFeedInfo baseUrl now name category filePath itemCount sources description
        ∈ (registerFeed baseUrl now registry name category filePath itemCount sources
            description).feeds
    ∧ (∀ f ∈ (registerFeed baseUrl now registry name category filePath itemCount
          sources description).feeds,
        f.name = name → f.category = category →
          f = builtFeedInfo baseUrl now name category filePath itemCount sources
            description)
    ∧ (registerFeed baseUrl now registry name category filePath itemCount sources
        description).feeds.Pairwise claimFeedOrder := by
  have hmemiff : ∀ f : FeedInfo,
      f ∈ (registerFeed baseUrl now registry name category filePath itemCount
        sources description).feeds ↔
      f ∈ registry.feeds.filter
          (fun feed => !(feed.name = name && feed.category = category))
        ++ [builtFeedInfo baseUrl now name category filePath itemCount sources
            description] :=
    fun f => (jsSortBy_perm feedLe _).mem_iff
  refine ⟨?_, ?_, ?_, ?_⟩
  · refine ((jsSortBy_perm feedLe _).pairwise_iff
      (fun hxy => feedKeyDistinct_symm hxy)).mpr ?_
    rw [List.pairwise_append]
    refine ⟨hpw.filter _, by simp, ?_⟩
    intro a hain b hbin
    rw [List.mem_singleton] at hbin
    subst hbin
    have hpred := (List.mem_filter.mp hain).2
    simp only [Bool.not_eq_true', Bool.and_eq_false_iff, decide_eq_false_iff_not] at hpred
    intro hcontra
    have hn : (builtFeedInfo baseUrl now name category filePath itemCount sources
        description).name = name := rfl
    have hc : (builtFeedInfo baseUrl now name category filePath itemCount sources
        description).category = category := rfl
    rw [hn, hc] at hcontra
    rcases hpred with hp | hp
    · exact hp hcontra.1
    · exact hp hcontra.2
  · exact (hmemiff _).mpr (List.mem_append_right _ (List.mem_singleton.mpr rfl))
  · intro f hf hname hcat
    rcases List.mem_append.mp ((hmemiff f).mp hf) with hin | hin
    · have hpred := (List.mem_filter.mp hin).2
      simp only [Bool.not_eq_true', Bool.and_eq_false_iff, decide_eq_false_iff_not] at hpred
      rcases hpred with hp | hp
      · exact absurd hname hp
      · exact absurd hcat hp
    · exact List.mem_singleton.mp hin
  · exact (jsSortBy_pairwise feedLe feedLe_trans feedLe_total _).imp
      (fun h => feedLe_imp_claimFeedOrder _ _ h)

/-- C9 witness: registering a crypto feed into a concrete registry holding
the master entry and an entertainment entry yields a collection that is
still key-unique and ordered master-first then by category. -/
theorem c9_registry_upsert_sorted_witness :
    (registerFeed "https://d" 10 regW "LookOnChain - Crypto" (some "crypto")
        "feeds/crypto/lookonchain.xml" 7 ["LookOnChain"] none).feeds.Pairwise
      feedKeyDistinct
    ∧ (registerFeed "https://d" 10 regW "LookOnChain - Crypto" (some "crypto")
        "feeds/crypto/lookonchain.xml" 7 ["LookOnChain"] none).feeds.Pairwise
      claimFeedOrder :=
  ⟨(c9_registry_upsert_sorted "https://d" 10 regW "LookOnChain - Crypto"
      (some "crypto") "feeds/crypto/lookonchain.xml" 7 ["LookOnChain"] none
      (by decide)).1,
   (c9_registry_upsert_sorted "https://d" 10 regW "LookOnChain - Crypto"
      (some "crypto") "feeds/crypto/lookonchain.xml" 7 ["LookOnChain"] none
      (by decide)).2.2.2⟩

end NewsScraper
